import Mathlib

/-!
Verification of the interruption-handling core of
`examples/voice_agents/basic_agent.py`.

The embedded code is the class `IntelligentInterruptionHandler`
(its class attribute `IGNORED_WORDS`, the constructor, the mutator
`set_agent_speaking_state`, and the classifier `is_ignored`) together
with the way `IntelligentAgent` drives it from its lifecycle hooks
(`on_agent_speech_start`, `on_agent_speech_end`,
`on_user_turn_completed`).

Strings are modelled as Lean `String` (a list of characters).  The
Python string primitives used by the code (`lower`, `strip`,
`replace`, and the regex `\b\w+\b`) are embedded character by
character over their ASCII behaviour, which covers every character
class the program's vocabulary and decision logic distinguish.
-/

/-- `str.lower()` on one character: ASCII uppercase letters are mapped
to lowercase, every other character is unchanged. -/
def pyLowerChar (c : Char) : Char :=
  if 'A' ≤ c ∧ c ≤ 'Z' then Char.ofNat (c.toNat + 32) else c

/-- The whitespace characters removed by `str.strip()` (ASCII core set). -/
def isPySpace (c : Char) : Bool :=
  c = ' ' || c = '\t' || c = '\n' || c = '\r' || c = '\x0b' || c = '\x0c'

/-- `str.strip()`: drop whitespace from both ends. -/
def pyStrip (s : List Char) : List Char :=
  ((s.dropWhile isPySpace).reverse.dropWhile isPySpace).reverse

/-- `str.replace(target, '')`: delete every occurrence of `target`. -/
def pyRemoveChar (target : Char) (s : List Char) : List Char :=
  s.filter (fun c => c ≠ target)

/-- The normalisation pipeline of `is_ignored`, line 53 of the source:
`transcription_text.lower().strip().replace('.', '').replace('?', '')`. -/
def normalizeText (s : List Char) : List Char :=
  pyRemoveChar '?' (pyRemoveChar '.' (pyStrip (s.map pyLowerChar)))

/-- A regex word character `\w`: alphanumeric or underscore. -/
def isWordChar (c : Char) : Bool :=
  c.isAlphanum || c = '_'

/-- Accumulating scanner behind `re.findall(r'\b\w+\b', text)`: collects
the maximal runs of word characters, left to right.  `acc` holds the
(reversed) run currently being read. -/
def findWordsAux : List Char → List Char → List String
  | [], acc => if acc.isEmpty then [] else [String.mk acc.reverse]
  | c :: rest, acc =>
    if isWordChar c then
      findWordsAux rest (c :: acc)
    else if acc.isEmpty then
      findWordsAux rest []
    else
      String.mk acc.reverse :: findWordsAux rest []

/-- `re.findall(r'\b\w+\b', text)`: the maximal runs of word characters
of `text`, in order. -/
def findWords (s : List Char) : List String :=
  findWordsAux s []

/-- The token list the classifier derives from a raw transcript:
normalise, then split into words (source lines 53–54). -/
def tokensOf (t : String) : List String :=
  findWords (normalizeText t.data)

/-- The state of an `IntelligentInterruptionHandler` instance.  The
Python instance stores `is_agent_speaking`; `IGNORED_WORDS` is a class
attribute fixed at class creation, carried here as a field so that
statements about its immutability and about vocabulary variants can be
expressed. -/
structure IntelligentInterruptionHandler where
  IGNORED_WORDS : List String
  is_agent_speaking : Bool
deriving DecidableEq, Repr

/-- The class attribute `IGNORED_WORDS` (source lines 33–35). -/
def IGNORED_WORDS : List String :=
  ["yeah", "ok", "okay", "aha", "uh-huh", "right", "mhm", "hmm", "um", "uh"]

/-- `IntelligentInterruptionHandler(is_agent_speaking)` — the
constructor pairs the class vocabulary with the given flag. -/
def mkHandler (is_agent_speaking : Bool) : IntelligentInterruptionHandler :=
  ⟨IGNORED_WORDS, is_agent_speaking⟩

/-- `set_agent_speaking_state(is_speaking)` (source lines 40–42):
overwrites the flag, touching nothing else. -/
def IntelligentInterruptionHandler.set_agent_speaking_state
    (h : IntelligentInterruptionHandler) (is_speaking : Bool) :
    IntelligentInterruptionHandler :=
  ⟨h.IGNORED_WORDS, is_speaking⟩

/-- `is_ignored(transcription_text)` (source lines 44–70):
returns `true` exactly when the utterance is to be ignored. -/
def IntelligentInterruptionHandler.is_ignored
    (h : IntelligentInterruptionHandler) (transcription_text : String) : Bool :=
  if transcription_text = "" then false
  else
    let text := normalizeText transcription_text.data
    let words := findWords text
    if !h.is_agent_speaking then false
    else words.all (fun word => h.IGNORED_WORDS.contains word)

/-- The two verdicts of the spec's `decide`. -/
inductive Verdict where
  | SUPPRESS
  | FORWARD
deriving DecidableEq, Repr

/-- The spec's `decide`: SUPPRESS iff `is_ignored` answers `true`
(`on_user_turn_completed` drops the utterance exactly when
`is_ignored` returns `True`, source lines 120–127). -/
def decideVerdict (h : IntelligentInterruptionHandler) (text : String) : Verdict :=
  if h.is_ignored text then Verdict.SUPPRESS else Verdict.FORWARD

/-- The notifications `IntelligentAgent` reacts to. -/
inductive AgentEvent where
  | speechStart
  | speechEnd
  | userTurn (t : String)

/-- One lifecycle hook of `IntelligentAgent` (source lines 88–134):
speech start/end update the handler; a completed user turn consults
`is_ignored` on the unchanged handler and yields a verdict. -/
def stepAgent (h : IntelligentInterruptionHandler) :
    AgentEvent → IntelligentInterruptionHandler × Option Verdict
  | AgentEvent.speechStart => (h.set_agent_speaking_state true, none)
  | AgentEvent.speechEnd => (h.set_agent_speaking_state false, none)
  | AgentEvent.userTurn t => (h, some (decideVerdict h t))

example : tokensOf "uh-huh" = ["uh", "huh"] := by decide
example : tokensOf "  Okay?  " = ["okay"] := by decide
example : tokensOf "..." = [] := by decide

/-! ### Helper lemmas -/

/-- The empty transcript is caught by the guard on line 50. -/
lemma is_ignored_empty (h : IntelligentInterruptionHandler) :
    h.is_ignored "" = false := rfl

/-- While the agent is silent, `is_ignored` answers `false` (lines 57–58). -/
lemma is_ignored_silent (h : IntelligentInterruptionHandler) (t : String)
    (hs : h.is_agent_speaking = false) : h.is_ignored t = false := by
  unfold IntelligentInterruptionHandler.is_ignored
  split
  · rfl
  · simp [hs]

/-- While the agent is speaking and the transcript is non-empty,
`is_ignored` is the all-tokens-filler test (lines 60–70). -/
lemma is_ignored_speaking (h : IntelligentInterruptionHandler) (t : String)
    (ht : t ≠ "") (hs : h.is_agent_speaking = true) :
    h.is_ignored t =
      (tokensOf t).all (fun word => h.IGNORED_WORDS.contains word) := by
  unfold IntelligentInterruptionHandler.is_ignored tokensOf
  simp [ht, hs]

lemma decideVerdict_eq_SUPPRESS_iff (h : IntelligentInterruptionHandler)
    (t : String) : decideVerdict h t = Verdict.SUPPRESS ↔ h.is_ignored t = true := by
  unfold decideVerdict
  split <;> simp_all

lemma decideVerdict_eq_FORWARD_iff (h : IntelligentInterruptionHandler)
    (t : String) : decideVerdict h t = Verdict.FORWARD ↔ h.is_ignored t = false := by
  unfold decideVerdict
  split <;> simp_all

lemma decideVerdict_empty (h : IntelligentInterruptionHandler) :
    decideVerdict h "" = Verdict.FORWARD :=
  (decideVerdict_eq_FORWARD_iff h "").mpr (is_ignored_empty h)

lemma decideVerdict_silent (h : IntelligentInterruptionHandler) (t : String)
    (hs : h.is_agent_speaking = false) : decideVerdict h t = Verdict.FORWARD :=
  (decideVerdict_eq_FORWARD_iff h t).mpr (is_ignored_silent h t hs)

/-- The decision depends on the raw text only through emptiness and the
token list. -/
lemma decideVerdict_congr (h : IntelligentInterruptionHandler)
    (t₁ t₂ : String) (h1 : t₁ ≠ "") (h2 : t₂ ≠ "")
    (htok : tokensOf t₁ = tokensOf t₂) :
    decideVerdict h t₁ = decideVerdict h t₂ := by
  unfold decideVerdict
  cases hs : h.is_agent_speaking
  · rw [is_ignored_silent h t₁ hs, is_ignored_silent h t₂ hs]
  · rw [is_ignored_speaking h t₁ h1 hs, is_ignored_speaking h t₂ h2 hs, htok]

lemma tokensOf_empty_str : tokensOf "" = [] := rfl

lemma pyLowerChar_of_space (c : Char) (h : isPySpace c = true) :
    pyLowerChar c = c := by
  unfold isPySpace at h
  simp only [Bool.or_eq_true, decide_eq_true_eq] at h
  rcases h with ((((h | h) | h) | h) | h) | h <;> subst h <;> decide

lemma pyStrip_of_all_space (l : List Char)
    (h : ∀ c ∈ l, isPySpace c = true) : pyStrip l = [] := by
  unfold pyStrip
  have h1 : l.dropWhile isPySpace = [] := List.dropWhile_eq_nil_iff.mpr h
  rw [h1]
  simp

/-- A whitespace-only transcript yields no tokens. -/
lemma tokensOf_whitespace (t : String)
    (hws : ∀ c ∈ t.data, isPySpace c = true) : tokensOf t = [] := by
  unfold tokensOf normalizeText
  have hstrip : pyStrip (t.data.map pyLowerChar) = [] := by
    apply pyStrip_of_all_space
    intro c hc
    rw [List.mem_map] at hc
    obtain ⟨a, ha, rfl⟩ := hc
    rw [pyLowerChar_of_space a (hws a ha)]
    exact hws a ha
  rw [hstrip]
  rfl

lemma str_ne_empty_of_data (t : String) (h : t.data ≠ []) : t ≠ "" := by
  intro he
  subst he
  exact h rfl

lemma all_congr_on_mem {α : Type} (l : List α) (p q : α → Bool)
    (h : ∀ x ∈ l, p x = q x) : l.all p = l.all q := by
  induction l with
  | nil => rfl
  | cons a l ih =>
    simp only [List.all_cons]
    rw [h a (List.mem_cons_self a l), ih fun x hx => h x (List.mem_cons_of_mem a hx)]

/-- Every string produced by the word scanner consists of word
characters only. -/
lemma findWordsAux_mem_isWordChar (s : List Char) :
    ∀ (acc : List Char), (∀ c ∈ acc, isWordChar c = true) →
      ∀ w ∈ findWordsAux s acc, ∀ c ∈ w.data, isWordChar c = true := by
  induction s with
  | nil =>
    intro acc hacc w hw c hc
    simp only [findWordsAux] at hw
    split at hw
    · simp at hw
    · simp only [List.mem_singleton] at hw
      subst hw
      simp only [List.mem_reverse] at hc
      exact hacc c hc
  | cons d rest ih =>
    intro acc hacc w hw c hc
    simp only [findWordsAux] at hw
    split at hw
    · rename_i hd
      refine ih (d :: acc) ?_ w hw c hc
      intro x hx
      rcases List.mem_cons.mp hx with hx | hx
      · subst hx; exact hd
      · exact hacc x hx
    · split at hw
      · exact ih [] (by simp) w hw c hc
      · rcases List.mem_cons.mp hw with hw | hw
        · subst hw
          simp only [List.mem_reverse] at hc
          exact hacc c hc
        · exact ih [] (by simp) w hw c hc

lemma mem_findWords_word (s : List Char) (w : String) (hw : w ∈ findWords s)
    (c : Char) (hc : c ∈ w.data) : isWordChar c = true :=
  findWordsAux_mem_isWordChar s [] (by simp) w hw c hc

/-- No token ever equals the compound vocabulary entry, whose hyphen is
not a word character. -/
lemma tokensOf_ne_uh_huh (t : String) (w : String) (hw : w ∈ tokensOf t) :
    w ≠ "uh-huh" := by
  intro he
  subst he
  have hword := mem_findWords_word (normalizeText t.data) "uh-huh" hw '-' (by decide)
  exact absurd hword (by decide)

/-! ### Claims -/

/-- C1: while the agent is speaking, a transcript with a non-empty
token list is SUPPRESSed exactly when every token belongs to the
handler's filler vocabulary: all-filler yields SUPPRESS, any non-filler
token yields FORWARD. -/
theorem C1_speaking_filler_decision (h : IntelligentInterruptionHandler)
    (t : String) (hs : h.is_agent_speaking = true) (hne : tokensOf t ≠ []) :
    ((∀ w ∈ tokensOf t, w ∈ h.IGNORED_WORDS) →
      decideVerdict h t = Verdict.SUPPRESS) ∧
    ((∃ w ∈ tokensOf t, w ∉ h.IGNORED_WORDS) →
      decideVerdict h t = Verdict.FORWARD) := by
  have htne : t ≠ "" := by
    intro he
    subst he
    exact hne tokensOf_empty_str
  constructor
  · intro hall
    rw [decideVerdict_eq_SUPPRESS_iff, is_ignored_speaking h t htne hs,
      List.all_eq_true]
    intro w hw
    simp only [List.contains, List.elem_iff]
    exact hall w hw
  · rintro ⟨w, hw, hnotin⟩
    rw [decideVerdict_eq_FORWARD_iff, is_ignored_speaking h t htne hs]
    simp only [List.all_eq_false]
    refine ⟨w, hw, ?_⟩
    simp only [List.contains, List.elem_iff]
    simpa using hnotin

theorem C1_witness :
    decideVerdict (mkHandler true) "yeah" = Verdict.SUPPRESS ∧
    decideVerdict (mkHandler true) "hello yeah" = Verdict.FORWARD :=
  ⟨(C1_speaking_filler_decision (mkHandler true) "yeah" rfl (by decide)).1
      (by decide),
   (C1_speaking_filler_decision (mkHandler true) "hello yeah" rfl (by decide)).2
      ⟨"hello", by decide, by decide⟩⟩

/-- C2: while the agent is silent, every transcript is FORWARDed,
whatever its content. -/
theorem C2_silent_always_forward (h : IntelligentInterruptionHandler)
    (t : String) (hs : h.is_agent_speaking = false) :
    decideVerdict h t = Verdict.FORWARD :=
  decideVerdict_silent h t hs

theorem C2_witness :
    decideVerdict (mkHandler false) "yeah" = Verdict.FORWARD ∧
    decideVerdict (mkHandler false) "" = Verdict.FORWARD :=
  ⟨C2_silent_always_forward (mkHandler false) "yeah" rfl,
   C2_silent_always_forward (mkHandler false) "" rfl⟩

/-- C3 (counterexample): a whitespace-only transcript delivered while
the agent is speaking is SUPPRESSed, not FORWARDed — the code's
emptiness guard tests only the literal empty string, and a blank falls
through to the vacuous all-filler rule. -/
theorem C3_counterexample :
    decideVerdict (mkHandler true) " " = Verdict.SUPPRESS ∧
    decideVerdict (mkHandler true) " " ≠ Verdict.FORWARD := by decide

/-- C3 (amended): the empty string is FORWARDed in every state; a
non-empty whitespace-only string is FORWARDed while the agent is
silent but SUPPRESSed while it is speaking. -/
theorem C3_amended_empty_whitespace (h : IntelligentInterruptionHandler)
    (t : String) (hne : t.data ≠ []) (hws : ∀ c ∈ t.data, isPySpace c = true) :
    decideVerdict h "" = Verdict.FORWARD ∧
    (h.is_agent_speaking = false → decideVerdict h t = Verdict.FORWARD) ∧
    (h.is_agent_speaking = true → decideVerdict h t = Verdict.SUPPRESS) := by
  refine ⟨decideVerdict_empty h, fun hs => decideVerdict_silent h t hs, fun hs => ?_⟩
  rw [decideVerdict_eq_SUPPRESS_iff,
    is_ignored_speaking h t (str_ne_empty_of_data t hne) hs,
    tokensOf_whitespace t hws]
  rfl

theorem C3_amended_witness :
    decideVerdict (mkHandler true) "" = Verdict.FORWARD ∧
    decideVerdict (mkHandler false) " " = Verdict.FORWARD ∧
    decideVerdict (mkHandler true) " " = Verdict.SUPPRESS :=
  ⟨(C3_amended_empty_whitespace (mkHandler true) " " (by decide) (by decide)).1,
   (C3_amended_empty_whitespace (mkHandler false) " " (by decide) (by decide)).2.1 rfl,
   (C3_amended_empty_whitespace (mkHandler true) " " (by decide) (by decide)).2.2 rfl⟩

/-- C4 (counterexample): while speaking, "uh-huh" is FORWARDed, not
SUPPRESSed — it tokenizes to "uh" and "huh", and "huh" is not a member
of `IGNORED_WORDS` (the set holds the compound entry "uh-huh", not the
bare token "huh"). -/
theorem C4_counterexample :
    decideVerdict (mkHandler true) "uh-huh" = Verdict.FORWARD ∧
    decideVerdict (mkHandler true) "uh-huh" ≠ Verdict.SUPPRESS := by decide

/-- C4 (amended): while speaking, "uh-huh" splits into the two tokens
"uh" and "huh", each checked individually; since "huh" is not in
`IGNORED_WORDS`, the verdict is FORWARD (with a vocabulary that also
held "huh" it would be SUPPRESS), and "uh-oh" is FORWARDed because
"oh" is not in the vocabulary. -/
theorem C4_amended_hyphen_splitting :
    tokensOf "uh-huh" = ["uh", "huh"] ∧
    "uh" ∈ IGNORED_WORDS ∧ "huh" ∉ IGNORED_WORDS ∧
    decideVerdict (mkHandler true) "uh-huh" = Verdict.FORWARD ∧
    decideVerdict ⟨IGNORED_WORDS ++ ["huh"], true⟩ "uh-huh" = Verdict.SUPPRESS ∧
    tokensOf "uh-oh" = ["uh", "oh"] ∧ "oh" ∉ IGNORED_WORDS ∧
    decideVerdict (mkHandler true) "uh-oh" = Verdict.FORWARD := by decide

/-- C5: while speaking, every non-empty transcript that normalizes to
zero tokens is SUPPRESSed by the vacuous all-filler rule, while the
empty transcript itself is FORWARDed; both are definite verdicts. -/
theorem C5_degenerate_zero_tokens (h : IntelligentInterruptionHandler)
    (t : String) (hs : h.is_agent_speaking = true) (hne : t ≠ "")
    (hz : tokensOf t = []) :
    decideVerdict h t = Verdict.SUPPRESS ∧
    decideVerdict h "" = Verdict.FORWARD := by
  refine ⟨?_, decideVerdict_empty h⟩
  rw [decideVerdict_eq_SUPPRESS_iff, is_ignored_speaking h t hne hs, hz]
  rfl

theorem C5_witness :
    decideVerdict (mkHandler true) "..." = Verdict.SUPPRESS ∧
    decideVerdict (mkHandler true) "" = Verdict.FORWARD :=
  C5_degenerate_zero_tokens (mkHandler true) "..." rfl (by decide) (by decide)

/-- C6: the verdict is insensitive to letter case and to '.'/'?'
characters: "YEAH" and "yeah" decide alike in every state, and
"okay.", "okay" and "Okay?" all decide to SUPPRESS while speaking. -/
theorem C6_case_punctuation_insensitive :
    (∀ h : IntelligentInterruptionHandler,
      decideVerdict h "YEAH" = decideVerdict h "yeah") ∧
    decideVerdict (mkHandler true) "okay." = decideVerdict (mkHandler true) "okay" ∧
    decideVerdict (mkHandler true) "okay" = decideVerdict (mkHandler true) "Okay?" ∧
    decideVerdict (mkHandler true) "okay." = Verdict.SUPPRESS ∧
    decideVerdict (mkHandler true) "okay" = Verdict.SUPPRESS ∧
    decideVerdict (mkHandler true) "Okay?" = Verdict.SUPPRESS :=
  ⟨fun h => decideVerdict_congr h "YEAH" "yeah" (by decide) (by decide) (by decide),
   by decide, by decide, by decide, by decide, by decide⟩

/-- C7: `set_agent_speaking_state` unconditionally overwrites the flag
and is idempotent, and the flag is re-read on every decision: after
setting it true, "yeah" is SUPPRESSed; after then setting it false,
"yeah" is FORWARDed. -/
theorem C7_set_speaking_state :
    (∀ (h : IntelligentInterruptionHandler) (b : Bool),
      (h.set_agent_speaking_state b).is_agent_speaking = b) ∧
    (∀ (h : IntelligentInterruptionHandler) (b : Bool),
      (h.set_agent_speaking_state b).set_agent_speaking_state b =
        h.set_agent_speaking_state b) ∧
    (∀ b : Bool,
      decideVerdict ((mkHandler b).set_agent_speaking_state true) "yeah" =
        Verdict.SUPPRESS ∧
      decideVerdict (((mkHandler b).set_agent_speaking_state true).set_agent_speaking_state false)
          "yeah" = Verdict.FORWARD) := by
  refine ⟨fun h b => rfl, fun h b => rfl, fun b => ?_⟩
  cases b <;> exact ⟨by decide, by decide⟩

/-- C8: deciding a user turn leaves the handler state untouched, and no
lifecycle event ever changes the vocabulary. -/
theorem C8_no_side_effects :
    (∀ (h : IntelligentInterruptionHandler) (t : String),
      (stepAgent h (AgentEvent.userTurn t)).fst = h) ∧
    (∀ (h : IntelligentInterruptionHandler) (e : AgentEvent),
      (stepAgent h e).fst.IGNORED_WORDS = h.IGNORED_WORDS) :=
  ⟨fun h t => rfl, fun h e => by cases e <;> rfl⟩

/-- C9: the vocabulary entry "uh-huh" is dead: since no token of any
transcript contains a hyphen, erasing "uh-huh" from `IGNORED_WORDS`
never changes a verdict, in either flag state. -/
theorem C9_uh_huh_entry_unreachable (b : Bool) (t : String) :
    decideVerdict ⟨IGNORED_WORDS, b⟩ t =
      decideVerdict ⟨IGNORED_WORDS.erase "uh-huh", b⟩ t := by
  cases b
  · rw [decideVerdict_silent _ t rfl, decideVerdict_silent _ t rfl]
  · by_cases ht : t = ""
    · subst ht
      rw [decideVerdict_empty, decideVerdict_empty]
    · unfold decideVerdict
      rw [is_ignored_speaking _ t ht rfl, is_ignored_speaking _ t ht rfl]
      have hall : (tokensOf t).all (fun word => IGNORED_WORDS.contains word) =
          (tokensOf t).all
            (fun word => (IGNORED_WORDS.erase "uh-huh").contains word) := by
        apply all_congr_on_mem
        intro w hw
        rw [Bool.eq_iff_iff]
        simp only [List.contains, List.elem_iff]
        exact (List.mem_erase_of_ne (tokensOf_ne_uh_huh t w hw)).symm
      rw [hall]

/-- C10: deleting '.' before tokenization glues words across a period:
"yeah.right" normalizes to the single token "yeahright", which is not
in the vocabulary, so it is FORWARDed while speaking even though
"yeah" and "right" are each fillers. -/
theorem C10_period_concatenates_tokens :
    tokensOf "yeah.right" = ["yeahright"] ∧
    "yeah" ∈ IGNORED_WORDS ∧ "right" ∈ IGNORED_WORDS ∧
    "yeahright" ∉ IGNORED_WORDS ∧
    decideVerdict (mkHandler true) "yeah.right" = Verdict.FORWARD := by decide
